import Mathlib

/-!
Verification of the iAERO Twitter bot's originality-preserving content
pipeline (src/twitter-bot.mjs, production version).

Modelling conventions:
* A JavaScript string is modelled as its sequence of Unicode code points
  (`List Char`); this matches the semantics of `[...str]` spread used by
  `safeTrimTweet` and of the string operations the bot performs (all the
  regex character classes involved live in the BMP).
* JavaScript `Set` objects of strings are modelled as duplicate-free
  `List (List Char)` in insertion order; `has`/`add` are `setHas`/`setAdd`.
* Machine floating-point ratios (word-overlap Jaccard) are modelled as
  exact rationals; the denominators that occur are far too small for the
  IEEE-754 rounding of the source to change any comparison against the
  thresholds 0.30/0.35.
* `crypto.createHash("sha256")` is given a full executable SHA-256 over
  byte lists, validated below against the standard test vectors.
-/

namespace TwitterBot

/-- JavaScript strings viewed as code-point sequences. -/
abbrev JSStr := List Char

/-- Convert a Lean string literal to the code-point model. -/
def jsStr (s : String) : JSStr := s.toList

/-- The character class of JavaScript `\s` (also the set stripped by
`String.prototype.trim`): ASCII whitespace, NBSP, the Unicode space
separators, line/paragraph separators and the BOM. -/
def isJsWs (c : Char) : Bool :=
  c = ' ' || c = '\t' || c = '\n' || (c.toNat = 11) || (c.toNat = 12) ||
  c = '\r' || (c.toNat = 160) || (c.toNat = 5760) ||
  (8192 ≤ c.toNat && c.toNat ≤ 8202) ||
  (c.toNat = 8232) || (c.toNat = 8233) || (c.toNat = 8239) ||
  (c.toNat = 8287) || (c.toNat = 12288) || (c.toNat = 65279)

/-- `String.prototype.trim`. -/
def jsTrim (l : JSStr) : JSStr :=
  ((l.dropWhile isJsWs).reverse.dropWhile isJsWs).reverse

/-- `String.prototype.toLowerCase`, restricted to the ASCII simple
mapping (every character the bot's pipeline feeds through it outside
ASCII is unchanged by the JavaScript mapping as well). -/
def jsToLowerChar (c : Char) : Char :=
  if 'A' ≤ c && c ≤ 'Z' then Char.ofNat (c.toNat + 32) else c

/-- Code-point-wise lowercase. -/
def jsToLower (l : JSStr) : JSStr := l.map jsToLowerChar

/-- Scanner for `replace(/\s+/g, " ")`: the flag records whether the
previous character was whitespace (a maximal whitespace run emits a
single space). -/
def collapseWsAux : Bool → JSStr → JSStr
  | _, [] => []
  | prev, c :: rest =>
    if isJsWs c then
      if prev then collapseWsAux true rest
      else ' ' :: collapseWsAux true rest
    else c :: collapseWsAux false rest

/-- `replace(/\s+/g, " ")`: every maximal run of whitespace becomes one
space. -/
def collapseWs (l : JSStr) : JSStr := collapseWsAux false l

/-- The normalization inside `hashTweet`:
`(content || "").trim().toLowerCase().replace(/\s+/g, " ")`. -/
def normalizeTweet (content : Option JSStr) : JSStr :=
  collapseWs (jsToLower (jsTrim (content.getD [])))

/-- UTF-8 encoding of one code point. -/
def utf8EncodeChar (c : Char) : List Nat :=
  let n := c.toNat
  if n < 128 then [n]
  else if n < 2048 then [192 + n / 64, 128 + n % 64]
  else if n < 65536 then
    [224 + n / 4096, 128 + (n / 64) % 64, 128 + n % 64]
  else
    [240 + n / 262144, 128 + (n / 4096) % 64, 128 + (n / 64) % 64, 128 + n % 64]

/-- UTF-8 encoding of a string (Node hashes the UTF-8 bytes). -/
def utf8Encode (l : JSStr) : List Nat := (l.map utf8EncodeChar).flatten

/-! ### SHA-256 -/

/-- Truncation to a 32-bit word. -/
def w32 (n : Nat) : Nat := n % 4294967296

/-- 32-bit right rotation (argument assumed `< 2^32`). -/
def rotr32 (n x : Nat) : Nat := w32 ((x >>> n) ||| (x <<< (32 - n)))

/-- SHA-256 `Ch e f g`. -/
def shaCh (e f g : Nat) : Nat := (e &&& f) ^^^ ((e ^^^ 4294967295) &&& g)

/-- SHA-256 `Maj a b c`. -/
def shaMaj (a b c : Nat) : Nat := (a &&& b) ^^^ (a &&& c) ^^^ (b &&& c)

/-- SHA-256 Σ₀. -/
def bigSigma0 (x : Nat) : Nat := rotr32 2 x ^^^ rotr32 13 x ^^^ rotr32 22 x

/-- SHA-256 Σ₁. -/
def bigSigma1 (x : Nat) : Nat := rotr32 6 x ^^^ rotr32 11 x ^^^ rotr32 25 x

/-- SHA-256 σ₀. -/
def smallSigma0 (x : Nat) : Nat := rotr32 7 x ^^^ rotr32 18 x ^^^ (x >>> 3)

/-- SHA-256 σ₁. -/
def smallSigma1 (x : Nat) : Nat := rotr32 17 x ^^^ rotr32 19 x ^^^ (x >>> 10)

/-- The 64 SHA-256 round constants (FIPS 180-4, in decimal). -/
def shaK : List Nat :=
  [1116352408, 1899447441, 3049323471, 3921009573, 961987163,
   1508970993, 2453635748, 2870763221, 3624381080, 310598401,
   607225278, 1426881987, 1925078388, 2162078206, 2614888103,
   3248222580, 3835390401, 4022224774, 264347078, 604807628,
   770255983, 1249150122, 1555081692, 1996064986, 2554220882,
   2821834349, 2952996808, 3210313671, 3336571891, 3584528711,
   113926993, 338241895, 666307205, 773529912, 1294757372,
   1396182291, 1695183700, 1986661051, 2177026350, 2456956037,
   2730485921, 2820302411, 3259730800, 3345764771, 3516065817,
   3600352804, 4094571909, 275423344, 430227734, 506948616,
   659060556, 883997877, 958139571, 1322822218, 1537002063,
   1747873779, 1955562222, 2024104815, 2227730452, 2361852424,
   2428436474, 2756734187, 3204031479, 3329325298]

/-- The SHA-256 initial hash value (FIPS 180-4, in decimal). -/
def shaH0 : List Nat :=
  [1779033703, 3144134277, 1013904242, 2773480762,
   1359893119, 2600822924, 528734635, 1541459225]

/-- Merkle–Damgård padding: append `0x80`, zeros, and the 64-bit
big-endian bit length, reaching a multiple of 64 bytes. -/
def shaPad (msg : List Nat) : List Nat :=
  let zeros := (119 - msg.length % 64) % 64
  let bitLen := msg.length * 8
  msg ++ 128 :: List.replicate zeros 0 ++
    [bitLen >>> 56 % 256, bitLen >>> 48 % 256, bitLen >>> 40 % 256,
     bitLen >>> 32 % 256, bitLen >>> 24 % 256, bitLen >>> 16 % 256,
     bitLen >>> 8 % 256, bitLen % 256]

/-- Group bytes into big-endian 32-bit words. -/
def wordsOfBytes : List Nat → List Nat
  | b0 :: b1 :: b2 :: b3 :: rest =>
    (b0 * 16777216 + b1 * 65536 + b2 * 256 + b3) :: wordsOfBytes rest
  | _ => []

/-- Group words into 16-word blocks. -/
def chunk16 : List Nat → List (List Nat)
  | w0 :: w1 :: w2 :: w3 :: w4 :: w5 :: w6 :: w7 ::
    w8 :: w9 :: w10 :: w11 :: w12 :: w13 :: w14 :: w15 :: rest =>
    [w0, w1, w2, w3, w4, w5, w6, w7, w8, w9, w10, w11, w12, w13, w14, w15] ::
      chunk16 rest
  | _ => []

/-- Extend the message schedule by `fuel` further words. -/
def shaSched (w : List Nat) : Nat → List Nat
  | 0 => w
  | fuel + 1 =>
    let n := w.length
    let nw := w32 (w.getD (n - 16) 0 + smallSigma0 (w.getD (n - 15) 0) +
                   w.getD (n - 7) 0 + smallSigma1 (w.getD (n - 2) 0))
    shaSched (w ++ [nw]) fuel

/-- The per-round SHA-256 state. -/
abbrev ShaState := Nat × Nat × Nat × Nat × Nat × Nat × Nat × Nat

/-- One SHA-256 compression round. -/
def shaRound (st : ShaState) (wt kt : Nat) : ShaState :=
  let (a, b, c, d, e, f, g, h) := st
  let t1 := w32 (h + bigSigma1 e + shaCh e f g + kt + wt)
  let t2 := w32 (bigSigma0 a + shaMaj a b c)
  (w32 (t1 + t2), a, b, c, w32 (d + t1), e, f, g)

/-- Run the 64 compression rounds over the schedule and constants. -/
def shaRounds : List Nat → List Nat → ShaState → ShaState
  | wt :: ws, kt :: ks, st => shaRounds ws ks (shaRound st wt kt)
  | _, _, st => st

/-- Compress one 16-word block into the running hash value. -/
def shaCompress (h : List Nat) (block : List Nat) : List Nat :=
  let w := shaSched block 48
  let h0 := h.getD 0 0
  let h1 := h.getD 1 0
  let h2 := h.getD 2 0
  let h3 := h.getD 3 0
  let h4 := h.getD 4 0
  let h5 := h.getD 5 0
  let h6 := h.getD 6 0
  let h7 := h.getD 7 0
  let st := shaRounds w shaK (h0, h1, h2, h3, h4, h5, h6, h7)
  let (a, b, c, d, e, f, g, hh) := st
  [w32 (h0 + a), w32 (h1 + b), w32 (h2 + c), w32 (h3 + d),
   w32 (h4 + e), w32 (h5 + f), w32 (h6 + g), w32 (h7 + hh)]

/-- SHA-256 of a byte list, as the 32-byte digest. -/
def sha256 (msg : List Nat) : List Nat :=
  let hs := (chunk16 (wordsOfBytes (shaPad msg))).foldl shaCompress shaH0
  (hs.map fun wrd => [wrd >>> 24 % 256, wrd >>> 16 % 256, wrd >>> 8 % 256, wrd % 256]).flatten

/-- Lowercase hex digit. -/
def hexChar (n : Nat) : Char := (jsStr "0123456789abcdef").getD n '0'

/-- Lowercase hex rendering of a byte list. -/
def bytesToHex (bs : List Nat) : JSStr :=
  (bs.map fun b => [hexChar (b / 16), hexChar (b % 16)]).flatten

/-- `hashTweet` from the source: SHA-256 of the normalized text, hex,
truncated to 16 characters. -/
def hashTweet (content : Option JSStr) : JSStr :=
  (bytesToHex (sha256 (utf8Encode (normalizeTweet content)))).take 16

/-! ### safeTrimTweet -/

/-- JavaScript `Array.prototype.slice(0, e)`: a negative end counts from
the end of the array, and the result is clamped to the array bounds. -/
def jsSliceTo (l : JSStr) (e : Int) : JSStr :=
  if e < 0 then l.take (l.length - (-e).toNat) else l.take e.toNat

/-- `safeTrimTweet` from the source: spread the string into code points;
if within `maxLength` return the original (empty for nullish input),
otherwise keep `maxLength - 1` code points and append the ellipsis. -/
def safeTrimTweet (tweet : Option JSStr) (maxLength : Int := 280) : JSStr :=
  let chars := tweet.getD []
  if (chars.length : Int) ≤ maxLength then tweet.getD []
  else jsSliceTo chars (maxLength - 1) ++ ['…']

/-! ### Candidate cleaning (the regex replacements in `isTwitterSimilar`
and `getRecentTweets`) -/

/-- `[^\s]`, the class matched by `\S`. -/
def isNonSpace (c : Char) : Bool := !isJsWs c

/-- Does `pat` occur at the head of `l`? -/
def headMatches : JSStr → JSStr → Bool
  | [], _ => true
  | _ :: _, [] => false
  | p :: ps, c :: cs => p = c && headMatches ps cs

/-- Does a match of `/https?:\/\/\S+/` begin at the head of `l`? -/
def urlStartsHere (l : JSStr) : Bool :=
  (headMatches (jsStr "https://") l &&
    (match l.drop 8 with | c :: _ => isNonSpace c | [] => false)) ||
  (headMatches (jsStr "http://") l &&
    (match l.drop 7 with | c :: _ => isNonSpace c | [] => false))

/-- Scanner for `replace(/https?:\/\/\S+/g, "")`: once a URL starts, the
whole surrounding non-space run is consumed (the regex match is exactly
that run from the scheme onward). -/
def removeUrlsAux : Bool → JSStr → JSStr
  | _, [] => []
  | inUrl, c :: rest =>
    if inUrl && isNonSpace c then removeUrlsAux true rest
    else if urlStartsHere (c :: rest) then removeUrlsAux true rest
    else c :: removeUrlsAux false rest

/-- `replace(/https?:\/\/\S+/g, "")`. -/
def removeUrls (l : JSStr) : JSStr := removeUrlsAux false l

/-- `\w` of a JavaScript regex without the unicode flag. -/
def isWordChar (c : Char) : Bool :=
  ('a' ≤ c && c ≤ 'z') || ('A' ≤ c && c ≤ 'Z') || ('0' ≤ c && c ≤ '9') || c = '_'

/-- Scanner for `replace(/@\w+/g, "")`: the flag records that we are
inside a mention's word-character run. -/
def removeMentionsAux : Bool → JSStr → JSStr
  | _, [] => []
  | inMention, c :: rest =>
    if inMention && isWordChar c then removeMentionsAux true rest
    else if c = '@' && (match rest with | r :: _ => isWordChar r | [] => false) then
      removeMentionsAux true rest
    else c :: removeMentionsAux false rest

/-- `replace(/@\w+/g, "")`. -/
def removeMentions (l : JSStr) : JSStr := removeMentionsAux false l

/-- `replace(/#/g, "")`. -/
def removeHashMarks (l : JSStr) : JSStr := l.filter (fun c => c ≠ '#')

/-- The cleaning applied to the candidate inside `isTwitterSimilar`:
strip URLs, mentions and `#` markers, trim, lowercase. -/
def cleanCandidate (t : JSStr) : JSStr :=
  jsToLower (jsTrim (removeHashMarks (removeMentions (removeUrls t))))

/-! ### Structural-pattern check -/

/-- Find the first occurrence of `pat` in the text and return the
remainder after it. -/
def findAfter (pat : JSStr) : JSStr → Option JSStr
  | [] => if pat = [] then some [] else none
  | c :: rest =>
    if headMatches pat (c :: rest) then some ((c :: rest).drop pat.length)
    else findAfter pat rest

/-- Try the literal fragments of a lazy regex in order: find the first
occurrence of each fragment strictly after the previous one.  For a
boolean `test` this is equivalent to the regex `f1.*?f2.*?…`. -/
def seqMatch : List JSStr → JSStr → Bool
  | [], _ => true
  | pat :: ps, text =>
    match findAfter pat text with
    | none => false
    | some rest => seqMatch ps rest

/-- The six formulaic patterns of `detectStructuralSimilarity`, each as
the alternatives of a sequence of literal fragments (the `.*?` gaps are
implicit between fragments; pattern 2's `(let|miss)` yields two
alternatives). -/
def structuralRegexes : List (List (List JSStr)) :=
  [ [[jsStr "with a tvl of", jsStr "and", jsStr "apy of"]],
    [[jsStr "don\x27t let this opportunity"], [jsStr "don\x27t miss this opportunity"]],
    [[jsStr "join", jsStr "today!"]],
    [[jsStr "dive into", jsStr "with", jsStr "tvl"]],
    [[jsStr "enhance your", jsStr "today"]],
    [[jsStr "ready to", jsStr "?", jsStr "with", jsStr "tvl"]] ]

/-- `p.test(text)` for one case-insensitive pattern. -/
def patternTest (alts : List (List JSStr)) (text : JSStr) : Bool :=
  alts.any (fun seq => seqMatch seq (jsToLower text))

/-- `detectStructuralSimilarity`: both texts match at least two of the
same formulaic patterns. -/
def detectStructuralSimilarity (text1 text2 : JSStr) : Bool :=
  2 ≤ (structuralRegexes.countP fun p => patternTest p text1 && patternTest p text2)

/-! ### Word-overlap (Jaccard) check -/

/-- Scanner for `match(/\b\w+\b/g)`: the accumulator holds the current
word-character run (reversed). -/
def wordTokensAux : JSStr → JSStr → List JSStr
  | acc, [] => if acc = [] then [] else [acc.reverse]
  | acc, c :: rest =>
    if isWordChar c then wordTokensAux (c :: acc) rest
    else if acc = [] then wordTokensAux [] rest
    else acc.reverse :: wordTokensAux [] rest

/-- The word tokens of a text: the maximal runs of `\w` characters. -/
def wordTokens (t : JSStr) : List JSStr := wordTokensAux [] t

/-- `new Set(text.match(/\b\w+\b/g) || [])` as a first-occurrence
duplicate-free list. -/
def wordSet (t : JSStr) : List JSStr := (wordTokens t).foldl (fun acc w => if acc.contains w then acc else acc ++ [w]) []

/-- `new Set([...words1].filter(x => words2.has(x))).size`. -/
def interSize (w1 w2 : List JSStr) : Nat := (w1.filter (fun x => w2.contains x)).length

/-- `new Set([...words1, ...words2]).size`. -/
def unionSize (w1 w2 : List JSStr) : Nat :=
  ((w1 ++ w2).foldl (fun acc w => if acc.contains w then acc else acc ++ [w]) []).length

/-- The word-overlap signal of `isTwitterSimilar` on one (cleaned)
candidate/prior pair: skip pairs where either side has fewer than 3
distinct tokens, otherwise compare the Jaccard ratio with the
threshold. -/
def jaccardTooSimilar (cleanNew cleanOld : JSStr) (threshold : ℚ) : Bool :=
  let words1 := wordSet cleanNew
  let words2 := wordSet cleanOld
  if words1.length < 3 ∨ words2.length < 3 then false
  else decide ((interSize words1 words2 : ℚ) / (unionSize words1 words2 : ℚ) > threshold)

/-- One iteration of `isTwitterSimilar`'s loop over a (non-empty) recent
tweet: structural similarity or word-overlap similarity. -/
def pairTooSimilar (cleanNew cleanOld : JSStr) (threshold : ℚ) : Bool :=
  detectStructuralSimilarity cleanNew cleanOld ||
    jaccardTooSimilar cleanNew cleanOld threshold

/-- `isTwitterSimilar` from the source: clean the candidate, lowercase
each recent tweet (falsy entries are skipped) and report whether any
pair trips a signal. -/
def isTwitterSimilar (newTweet : Option JSStr) (recentTweets : List JSStr)
    (threshold : ℚ := 35/100) : Bool :=
  let cleanNew := cleanCandidate (newTweet.getD [])
  recentTweets.any fun recent =>
    if recent = [] then false
    else pairTooSimilar cleanNew (jsToLower recent) threshold

/-! ### The in-memory hash set (`postedHashes`, a JavaScript `Set`) -/

/-- `postedHashes.has(h)`. -/
def setHas (store : List JSStr) (h : JSStr) : Bool := store.contains h

/-- `postedHashes.add(h)`: a `Set` keeps insertion order and ignores a
re-inserted element. -/
def setAdd (store : List JSStr) (h : JSStr) : List JSStr :=
  if store.contains h then store else store ++ [h]

/-- `saveHashes`: the persisted file is `[...postedHashes].slice(-500)`,
the most recent 500 hashes in insertion order. -/
def saveHashes (store : List JSStr) : List JSStr :=
  store.drop (store.length - 500)

/-- `loadHashes`: `new Set(JSON.parse(data))` — rebuild the set from the
persisted array, keeping first occurrences in order. -/
def loadHashes (file : List JSStr) : List JSStr := file.foldl setAdd []

/-! ### The posting loop (`postTweet`) -/

/-- The outcome classes of `twitterClient.v2.tweet`: success, a thrown
rate-limit error (`code === 429`), a thrown duplicate-content rejection,
or any other thrown error.  The source's catch block distinguishes only
`code === 429`. -/
inductive PubResult
  | success
  | rateLimited
  | dupContent
  | otherError
deriving DecidableEq

/-- The loop body of `postTweet`, one iteration per remaining attempt
(`fuel = retries + 1 - i`).  `gen i` is the content the generators
return on attempt `i` (`none` for null), `pub i` the outcome of the
publish call on attempt `i`.  The result is the posted text (if any),
the final hash store, and the number of publish calls made.  Mirrors the
source exactly: the hash is computed from the *untrimmed* content, the
hash-collision branch `continue`s, trimming happens just before the
publish call, a 429 error breaks out of the loop, and any other error
retries while attempts remain. -/
def postTweetGo (gen : Nat → Option JSStr) (pub : Nat → PubResult) :
    Nat → Nat → List JSStr → Option JSStr × List JSStr × Nat
  | 0, _, store => (none, store, 0)
  | fuel + 1, i, store =>
    match gen i with
    | none => (none, store, 0)
    | some content =>
      if content = [] then (none, store, 0)
      else
        let tweetHash := hashTweet (some content)
        if setHas store tweetHash then postTweetGo gen pub fuel (i + 1) store
        else
          match pub i with
          | .success =>
            (some (safeTrimTweet (some content) 280), setAdd store tweetHash, 1)
          | .rateLimited => (none, store, 1)
          | _ =>
            if fuel ≥ 1 then
              let r := postTweetGo gen pub fuel (i + 1) store
              (r.1, r.2.1, r.2.2 + 1)
            else (none, store, 1)

/-- `postTweet(retries = 2)`. -/
def postTweet (gen : Nat → Option JSStr) (pub : Nat → PubResult)
    (store : List JSStr) (retries : Nat := 2) : Option JSStr × List JSStr × Nat :=
  postTweetGo gen pub (retries + 1) 0 store

/-! ### `generateProtocolTweet` when the language backend throws -/

/-- The informational fallback tweets of `generateProtocolTweet`. -/
def PROTOCOL_FALLBACKS : List JSStr :=
  [ jsStr "Did you know? Every iAERO holder owns a piece of permanently locked veAERO. The lock never expires, but your tokens stay liquid. Best of both worlds.",
    jsStr "Thread: Why permanent locks beat 4-year locks 🧵\n\n1) No re-lock cycles\n2) Tokens stay liquid\n3) Same voting power\n4) Exit anytime\n\nThat’s iAERO.",
    jsStr "Fun fact: iAERO stakers earn fees while 4-year lockers wait for unlocks. Time in market > timing market.",
    jsStr "0.95 iAERO per AERO locked. That 5% funds the liquid wrapper you can exit anytime. Fair trade.",
    jsStr "Question for lockers: What if you need liquidity before 2028?\n\niAERO: “We can sell anytime.”",
    jsStr "Myth: You must lock for max rewards.\nReality: iAERO earns the same with zero unlock date." ]

/-- The fallback loop at the end of `generateProtocolTweet`: return the
first fallback (in shuffle order) whose hash is unseen and which is not
Twitter-similar at threshold 0.3; with none left, return null. -/
def fallbackScan (store : List JSStr) (recentTweets : List JSStr) :
    List JSStr → Option JSStr
  | [] => none
  | fb :: rest =>
    if !setHas store (hashTweet (some fb)) &&
        !isTwitterSimilar (some fb) recentTweets (3/10) then some fb
    else fallbackScan store recentTweets rest

/-- `generateProtocolTweet` specialised to an execution in which every
`chatOnce` invocation throws: the loop's first attempt checks the stats
(`!stats || stats.tvl === "0"` returns null), reaches the OpenAI call,
catches the thrown error and `break`s, so control falls through to the
fallback loop.  `statsTvl` is `stats.tvl` (`none` for a null stats
object) and `order` the shuffled fallback list. -/
def generateProtocolTweetBackendDown (statsTvl : Option JSStr)
    (store : List JSStr) (recentTweets : List JSStr) (order : List JSStr) :
    Option JSStr :=
  match statsTvl with
  | none => none
  | some tvl =>
    if tvl = jsStr "0" then none
    else fallbackScan store recentTweets order

/-! ### The history-wide near-duplicate check (modelled from the spec)

The spec's §4.1/§4.2 describe a history-wide similarity check — numeric
neutralization, unigram/bigram Jaccard and a 32-bit near-duplicate
signature compared by Hamming distance — that appears in the repository
but not in the files under `src/`; the definitions in this section are
therefore modelled from the spec's words rather than translated from
source. -/

/-- ASCII digit test. -/
def isDigitChar (c : Char) : Bool := '0' ≤ c && c ≤ '9'

/-- ASCII letter-or-digit test. -/
def isAlnumChar (c : Char) : Bool :=
  ('a' ≤ c && c ≤ 'z') || ('A' ≤ c && c ≤ 'Z') || isDigitChar c

/-- Modelled from the spec: numeric-literal neutralization — every
maximal run of digits is replaced by a single placeholder digit, so that
"811K" and "823K" compare equal. -/
def neutralizeNumsAux : Bool → JSStr → JSStr
  | _, [] => []
  | inNum, c :: rest =>
    if isDigitChar c then
      if inNum then neutralizeNumsAux true rest
      else '0' :: neutralizeNumsAux true rest
    else c :: neutralizeNumsAux false rest

/-- Modelled from the spec: neutralize the numeric literals of a text. -/
def neutralizeNums (l : JSStr) : JSStr := neutralizeNumsAux false l

/-- Modelled from the spec: strip punctuation/emoji, keeping letters and
digits (non-alphanumeric characters become spaces so that token
boundaries survive). -/
def keepAlnum (l : JSStr) : JSStr :=
  l.map fun c => if isAlnumChar c then c else ' '

/-- Modelled from the spec: the heavy normalization feeding the
near-duplicate signature — strip URLs, mentions and `#` markers,
lowercase, neutralize numeric literals, strip punctuation/emoji, and
collapse whitespace. -/
def normHist (t : JSStr) : JSStr :=
  jsTrim (collapseWs (neutralizeNums (keepAlnum
    (jsToLower (removeHashMarks (removeMentions (removeUrls t)))))))

/-- The unigram tokens of the heavily normalized text. -/
def histUnigrams (t : JSStr) : List JSStr := wordTokens (normHist t)

/-- Adjacent-pair bigrams, joined with a space. -/
def bigramsOf : List JSStr → List JSStr
  | [] => []
  | a :: tail =>
    match tail with
    | [] => []
    | b :: _ => (a ++ ' ' :: b) :: bigramsOf tail

/-- The bigram tokens of the heavily normalized text. -/
def histBigrams (t : JSStr) : List JSStr := bigramsOf (histUnigrams t)

/-- FNV-1a, the 32-bit wide feature hash used by the signature model. -/
def fnv1a32 (bytes : List Nat) : Nat :=
  bytes.foldl (fun h b => w32 ((h ^^^ b) * 16777619)) 2166136261

/-- Modelled from the spec: one bit of the locality-sensitive signature —
the per-bit accumulator `Σ ±1` over all features is positive exactly
when more than half of the feature hashes have the bit set. -/
def simhashBit (feats : List JSStr) (b : Nat) : Bool :=
  2 * (feats.countP fun f => (fnv1a32 (utf8Encode f)) >>> b % 2 = 1) > feats.length

/-- Modelled from the spec: the 32-bit near-duplicate signature over the
unigram and bigram features of the heavily normalized text. -/
def nearDupSignature (t : JSStr) : Nat :=
  let feats := histUnigrams t ++ histBigrams t
  (List.range 32).foldl
    (fun acc b => acc + (if simhashBit feats b then 2 ^ b else 0)) 0

/-- Hamming distance between two 32-bit signatures. -/
def hamming32 (x y : Nat) : Nat :=
  (List.range 32).countP fun b => (x ^^^ y) >>> b % 2 = 1

/-- First-occurrence distinct list (set semantics for Jaccard). -/
def distinctList (l : List JSStr) : List JSStr :=
  l.foldl (fun acc w => if acc.contains w then acc else acc ++ [w]) []

/-- Exact Jaccard ratio of two token lists. -/
def jaccardQ (l1 l2 : List JSStr) : ℚ :=
  let s1 := distinctList l1
  let s2 := distinctList l2
  (interSize s1 s2 : ℚ) / (unionSize s1 s2 : ℚ)

/-- Modelled from the spec: the history-wide check — against every entry
of the lookback window, word-Jaccard over unigrams (threshold 0.82),
word-Jaccard over bigrams (threshold 0.72) and signature Hamming
distance (threshold 6 of 32 bits); any one signal tripping rejects. -/
def historyWideSimilar (candidate : JSStr) (window : List JSStr) : Bool :=
  window.any fun prior =>
    decide (jaccardQ (histUnigrams candidate) (histUnigrams prior) > 82/100) ||
    decide (jaccardQ (histBigrams candidate) (histBigrams prior) > 72/100) ||
    decide (hamming32 (nearDupSignature candidate) (nearDupSignature prior) ≤ 6)

/-! ### Concrete inputs used by witnesses and counterexamples -/

/-- A 281-code-point candidate, exceeding the platform limit. -/
def longCandidate : JSStr := List.replicate 281 'a'

/-- A 281-code-point candidate made of emoji (each a single code point
encoded as a surrogate pair in UTF-16). -/
def emojiCandidate : JSStr := List.replicate 281 '🧵'

/-- A hash store of 501 distinct hashes in insertion order. -/
def bigStore : List JSStr := (List.range 501).map fun i => List.replicate (i + 1) 'a'

/-- The near-duplicate pair of spec property P3. -/
def priorTVL : JSStr := jsStr "TVL is 811K, APY is 12%"

/-- The near-duplicate pair of spec property P3. -/
def candidateTVL : JSStr := jsStr "TVL is 823K, APY is 12%"

/-!
## Theorems

First the shared helper lemmas, then one theorem per claim (with a
witness or counterexample where the status requires one).
-/

/-- SHA-256 empty-message test vector. -/
theorem sha256_empty_vector :
    bytesToHex (sha256 []) =
      jsStr "e3b0c44298fc1c149afbf4c8996fb92427ae41e4649b934ca495991b7852b855" := by
  decide

/-- SHA-256 "abc" test vector. -/
theorem sha256_abc_vector :
    bytesToHex (sha256 (utf8Encode (jsStr "abc"))) =
      jsStr "ba7816bf8f01cfea414140de5dae2223b00361a396177a9cb410ff61f20015ad" := by
  decide

/-- `hashTweet` is determined by the normalized text. -/
theorem hashTweet_congr (a b : Option JSStr)
    (h : normalizeTweet a = normalizeTweet b) : hashTweet a = hashTweet b := by
  unfold hashTweet
  rw [h]

/-- `setHas` is list membership. -/
theorem setHas_eq_true_iff (store : List JSStr) (h : JSStr) :
    setHas store h = true ↔ h ∈ store :=
  List.elem_iff

/-- Folding `setAdd` over a duplicate-free list of fresh elements
appends it. -/
theorem foldl_setAdd_of_nodup :
    ∀ (l acc : List JSStr), (∀ x ∈ l, x ∉ acc) → l.Nodup →
      l.foldl setAdd acc = acc ++ l := by
  intro l
  induction l with
  | nil => intro acc _ _; simp
  | cons a rest ih =>
    intro acc hfresh hnd
    have hna : a ∉ acc := hfresh a (List.mem_cons_self a rest)
    have hadd : setAdd acc a = acc ++ [a] := by
      have hcf : acc.contains a = false := by
        rcases hc : acc.contains a with _ | _
        · rfl
        · exact absurd ((setHas_eq_true_iff acc a).mp hc) hna
      simp only [setAdd, hcf, Bool.false_eq_true, if_false]
    have hfresh2 : ∀ x ∈ rest, x ∉ acc ++ [a] := by
      intro x hx
      simp only [List.mem_append, List.mem_singleton]
      rintro (h1 | h2)
      · exact hfresh x (List.mem_cons_of_mem a hx) h1
      · subst h2
        exact (List.nodup_cons.mp hnd).1 hx
    calc (a :: rest).foldl setAdd acc = rest.foldl setAdd (setAdd acc a) := rfl
      _ = rest.foldl setAdd (acc ++ [a]) := by rw [hadd]
      _ = (acc ++ [a]) ++ rest := ih (acc ++ [a]) hfresh2 (List.nodup_cons.mp hnd).2
      _ = acc ++ a :: rest := by simp

/-- `loadHashes` of a duplicate-free file reproduces it. -/
theorem loadHashes_of_nodup (l : List JSStr) (h : l.Nodup) :
    loadHashes l = l := by
  have := foldl_setAdd_of_nodup l [] (by simp) h
  simpa [loadHashes] using this

/-- The fallback loop only returns a fallback whose hash is unseen. -/
theorem fallbackScan_sound (store recentTweets : List JSStr) :
    ∀ (order : List JSStr) (t : JSStr),
      fallbackScan store recentTweets order = some t →
      t ∈ order ∧ setHas store (hashTweet (some t)) = false := by
  intro order
  induction order with
  | nil => intro t ht; simp [fallbackScan] at ht
  | cons fb rest ih =>
    intro t ht
    by_cases hc : (!setHas store (hashTweet (some fb)) &&
        !isTwitterSimilar (some fb) recentTweets (3/10)) = true
    · rw [fallbackScan, if_pos hc] at ht
      cases ht
      rcases (Bool.and_eq_true _ _).mp hc with ⟨h1, _⟩
      refine ⟨List.mem_cons_self _ _, ?_⟩
      rcases hs : setHas store (hashTweet (some fb)) with _ | _
      · rfl
      · rw [hs] at h1; exact absurd h1 (by decide)
    · rw [fallbackScan, if_neg hc] at ht
      rcases ih t ht with ⟨hmem, hfresh⟩
      exact ⟨List.mem_cons_of_mem _ hmem, hfresh⟩

/-- If every fallback of the list is already hash-blocked, the fallback
loop returns null. -/
theorem fallbackScan_all_blocked (store recentTweets : List JSStr) :
    ∀ (order : List JSStr),
      (∀ fb ∈ order, setHas store (hashTweet (some fb)) = true) →
      fallbackScan store recentTweets order = none := by
  intro order
  induction order with
  | nil => intro _; rfl
  | cons fb rest ih =>
    intro hall
    rw [fallbackScan, if_neg, ih fun x hx => hall x (List.mem_cons_of_mem fb hx)]
    rw [hall fb (List.mem_cons_self fb rest)]
    simp

/-- Every informational fallback tweet is non-empty. -/
theorem protocol_fallbacks_nonempty : ∀ fb ∈ PROTOCOL_FALLBACKS, fb ≠ [] := by
  decide

/-- C6: for every text whose code-point length exceeds the 280 limit,
`safeTrimTweet` returns the first 279 code points followed by exactly
one truncation marker — so it never splits a code point and the output's
code-point length is exactly 280 (hence at most the limit) — while texts
at or under the limit are returned unchanged. -/
theorem claim_C6_trim_correct (t : JSStr) :
    (280 < t.length →
      safeTrimTweet (some t) 280 = t.take 279 ++ ['…'] ∧
        (safeTrimTweet (some t) 280).length = 280) ∧
    (t.length ≤ 280 → safeTrimTweet (some t) 280 = t) := by
  constructor
  · intro h
    have hgt : ¬ ((t.length : Int) ≤ (280 : Int)) := by omega
    have heq : safeTrimTweet (some t) 280 = t.take 279 ++ ['…'] := by
      simp only [safeTrimTweet, Option.getD_some, jsSliceTo]
      rw [if_neg hgt, if_neg (by norm_num)]
      rfl
    refine ⟨heq, ?_⟩
    rw [heq]
    simp only [List.length_append, List.length_take, List.length_singleton]
    omega
  · intro h
    have hle : ((t.length : Int) ≤ (280 : Int)) := by omega
    simp only [safeTrimTweet, Option.getD_some]
    rw [if_pos hle]

/-- C6 witness: a 281-emoji text is trimmed to its first 279 emoji plus
the marker, with output length exactly 280. -/
theorem claim_C6_witness :
    safeTrimTweet (some emojiCandidate) 280 =
        emojiCandidate.take 279 ++ ['…'] ∧
      (safeTrimTweet (some emojiCandidate) 280).length = 280 :=
  (claim_C6_trim_correct emojiCandidate).1
    (by unfold emojiCandidate; rw [List.length_replicate]; omega)

/-- C10: `safeTrimTweet` is idempotent for every limit `n ≥ 1` — the
output's code-point length never exceeds `n`, so a second trim returns
it unchanged — and nullish input yields the empty string. -/
theorem claim_C10_trim_idempotent (t : Option JSStr) (n : Int) (hn : 1 ≤ n) :
    safeTrimTweet (some (safeTrimTweet t n)) n = safeTrimTweet t n ∧
      safeTrimTweet none n = [] := by
  constructor
  · by_cases hle : (((t.getD []).length : Int) ≤ n)
    · have h1 : safeTrimTweet t n = t.getD [] := by
        simp only [safeTrimTweet]
        rw [if_pos hle]
      rw [h1]
      simp only [safeTrimTweet, Option.getD_some]
      rw [if_pos hle]
    · have hlt : n < ((t.getD []).length : Int) := lt_of_not_le hle
      have h1 : safeTrimTweet t n = (t.getD []).take (n - 1).toNat ++ ['…'] := by
        simp only [safeTrimTweet, jsSliceTo]
        rw [if_neg hle, if_neg (by omega)]
      have hlen : ((t.getD []).take (n - 1).toNat ++ ['…']).length = n.toNat := by
        simp only [List.length_append, List.length_take, List.length_singleton]
        omega
      rw [h1]
      simp only [safeTrimTweet, Option.getD_some]
      rw [if_pos (by rw [hlen]; omega)]
  · simp only [safeTrimTweet, Option.getD_none, List.length_nil]
    rw [if_pos (by omega)]

/-- C10 witness: idempotence at limit 280 on a concrete short text, and
the nullish case. -/
theorem claim_C10_witness :
    safeTrimTweet (some (safeTrimTweet (some (jsStr "gm ser")) 280)) 280 =
        safeTrimTweet (some (jsStr "gm ser")) 280 ∧
      safeTrimTweet none 280 = [] :=
  claim_C10_trim_idempotent (some (jsStr "gm ser")) 280 (by norm_num)

/-- C7: the content hash is invariant under leading/trailing whitespace,
letter case and internal whitespace runs: concretely
`hashTweet " Hello   world " = hashTweet "hello world"`, and in general
any two texts with the same trim/lowercase/whitespace-collapse
normalization hash identically. -/
theorem claim_C7_hash_formatting :
    hashTweet (some (jsStr " Hello   world ")) = hashTweet (some (jsStr "hello world")) ∧
    ∀ a b : Option JSStr, normalizeTweet a = normalizeTweet b → hashTweet a = hashTweet b :=
  ⟨hashTweet_congr _ _ (by decide), hashTweet_congr⟩

/-- C7 witness: the general normalization-invariance applied to a
concrete pair differing in internal whitespace. -/
theorem claim_C7_witness :
    hashTweet (some (jsStr "a  b")) = hashTweet (some (jsStr "a b")) :=
  claim_C7_hash_formatting.2 _ _ (by decide)

/-- C9: the word-overlap signal of `isTwitterSimilar` skips any pair
where either side has fewer than 3 distinct word tokens, and otherwise
reports too-similar exactly when the Jaccard ratio
intersection/union strictly exceeds the threshold. -/
theorem claim_C9_word_overlap (cleanNew cleanOld : JSStr) (threshold : ℚ) :
    ((wordSet cleanNew).length < 3 ∨ (wordSet cleanOld).length < 3 →
        jaccardTooSimilar cleanNew cleanOld threshold = false) ∧
    (3 ≤ (wordSet cleanNew).length → 3 ≤ (wordSet cleanOld).length →
        (jaccardTooSimilar cleanNew cleanOld threshold = true ↔
          (interSize (wordSet cleanNew) (wordSet cleanOld) : ℚ) /
            (unionSize (wordSet cleanNew) (wordSet cleanOld) : ℚ) > threshold)) := by
  constructor
  · intro h
    simp only [jaccardTooSimilar]
    rw [if_pos h]
  · intro h1 h2
    simp only [jaccardTooSimilar]
    rw [if_neg (by omega)]
    exact decide_eq_true_iff

/-- C9 witness: the skip branch and the ratio branch on concrete pairs. -/
theorem claim_C9_witness :
    jaccardTooSimilar (jsStr "alpha beta gamma") (jsStr "alpha beta delta") (35/100) = true ↔
      (interSize (wordSet (jsStr "alpha beta gamma")) (wordSet (jsStr "alpha beta delta")) : ℚ) /
        (unionSize (wordSet (jsStr "alpha beta gamma")) (wordSet (jsStr "alpha beta delta")) : ℚ) >
        35/100 :=
  (claim_C9_word_overlap _ _ _).2 (by decide) (by decide)

/-- C2: with the prior text "TVL is 811K, APY is 12%" in the published
log, the candidate "TVL is 823K, APY is 12%" is rejected: numeric
neutralization makes the two heavy normalizations identical, hence
their near-duplicate signatures are equal and the Hamming-distance
signal (distance 0 ≤ 6, any one signal sufficing) trips the
history-wide check; the source's own `isTwitterSimilar` also rejects the
pair (word-Jaccard 4/6 > 0.35). -/
theorem claim_C2_near_duplicate_rejection :
    normHist candidateTVL = normHist priorTVL ∧
    nearDupSignature candidateTVL = nearDupSignature priorTVL ∧
    hamming32 (nearDupSignature candidateTVL) (nearDupSignature priorTVL) ≤ 6 ∧
    historyWideSimilar candidateTVL [priorTVL] = true ∧
    isTwitterSimilar (some candidateTVL) [priorTVL] (35/100) = true := by
  refine ⟨by decide, by decide, by decide, ?_, ?_⟩
  · have h3 : decide
        (hamming32 (nearDupSignature candidateTVL) (nearDupSignature priorTVL) ≤ 6) = true :=
      decide_eq_true (by decide)
    simp only [historyWideSimilar, List.any_cons, List.any_nil, h3,
      Bool.or_true, Bool.true_or, Bool.or_false]
  · have hinter : interSize (wordSet (cleanCandidate candidateTVL))
        (wordSet (jsToLower priorTVL)) = 4 := by decide
    have huni : unionSize (wordSet (cleanCandidate candidateTVL))
        (wordSet (jsToLower priorTVL)) = 6 := by decide
    have hjac : jaccardTooSimilar (cleanCandidate candidateTVL)
        (jsToLower priorTVL) (35/100) = true := by
      unfold jaccardTooSimilar
      rw [if_neg (by decide)]
      refine decide_eq_true ?_
      rw [hinter, huni]
      norm_num
    simp only [isTwitterSimilar, Option.getD_some, List.any_cons, List.any_nil,
      pairTooSimilar, hjac, Bool.or_true, Bool.or_false]
    rw [if_neg (by decide)]

/-- C8: if the publish call throws a rate-limit error on an attempt, the
posting loop performs no further publish attempts in that cycle and
returns null (exactly one publish call was made), leaving the store
unchanged; this holds for every retry budget. -/
theorem claim_C8_rate_limit_stops (gen : Nat → Option JSStr) (pub : Nat → PubResult)
    (store : List JSStr) (retries : Nat) (c : JSStr)
    (hgen : gen 0 = some c) (hne : c ≠ [])
    (hfresh : setHas store (hashTweet (some c)) = false)
    (hpub : pub 0 = PubResult.rateLimited) :
    postTweet gen pub store retries = (none, store, 1) := by
  unfold postTweet
  simp only [postTweetGo, hgen]
  rw [if_neg hne]
  simp only [hfresh, Bool.false_eq_true, if_false, hpub]

/-- C8 witness: a rate-limit error on the first publish attempt with two
retries remaining still yields a single publish call and a null result. -/
theorem claim_C8_witness :
    postTweet (fun _ => some (jsStr "gm ser")) (fun _ => PubResult.rateLimited) [] 2 =
      (none, [], 1) :=
  claim_C8_rate_limit_stops _ _ _ _ _ rfl (by decide) rfl rfl

/-- C1 (amended): the hash recorded by the posting loop is computed from
the *untrimmed* candidate (`hashTweet content` runs before
`safeTrimTweet`), while the posted text is the trimmed candidate; the
recorded hash coincides with the hash of the trimmed bytes only for
candidates already within the 280 limit, where trimming is the
identity. -/
theorem claim_C1_hash_of_untrimmed (gen : Nat → Option JSStr) (pub : Nat → PubResult)
    (store : List JSStr) (retries : Nat) (c : JSStr)
    (hgen : gen 0 = some c) (hne : c ≠ [])
    (hfresh : setHas store (hashTweet (some c)) = false)
    (hpub : pub 0 = PubResult.success) :
    postTweet gen pub store retries =
      (some (safeTrimTweet (some c) 280), setAdd store (hashTweet (some c)), 1) ∧
    ((c.length : Int) ≤ 280 →
      hashTweet (some (safeTrimTweet (some c) 280)) = hashTweet (some c)) := by
  constructor
  · unfold postTweet
    simp only [postTweetGo, hgen]
    rw [if_neg hne]
    simp only [hfresh, Bool.false_eq_true, if_false, hpub]
  · intro h
    have htrim : safeTrimTweet (some c) 280 = c := by
      simp only [safeTrimTweet, Option.getD_some]
      rw [if_pos h]
    rw [htrim]

/-- C1 witness: a short candidate is posted unchanged and its hash —
computed from the untrimmed text — is recorded. -/
theorem claim_C1_witness :
    postTweet (fun _ => some (jsStr "gm ser")) (fun _ => PubResult.success) [] 2 =
      (some (safeTrimTweet (some (jsStr "gm ser")) 280),
        setAdd [] (hashTweet (some (jsStr "gm ser"))), 1) :=
  (claim_C1_hash_of_untrimmed (fun _ => some (jsStr "gm ser"))
    (fun _ => PubResult.success) [] 2 (jsStr "gm ser") rfl (by decide) rfl rfl).1

set_option maxRecDepth 100000 in
/-- C1 counterexample: for a 281-character candidate the loop records
`hashTweet` of the untrimmed text, and the hash of the trimmed text that
was actually sent is *not* in the resulting store — refuting the claim
that the recorded hash equals `hashTweet (safeTrimTweet text)` for
over-limit candidates. -/
theorem claim_C1_counterexample :
    (postTweet (fun _ => some longCandidate) (fun _ => PubResult.success) [] 2).2.1 =
      [hashTweet (some longCandidate)] ∧
    setHas (postTweet (fun _ => some longCandidate) (fun _ => PubResult.success) [] 2).2.1
      (hashTweet (some (safeTrimTweet (some longCandidate) 280))) = false := by
  constructor
  · rfl
  · decide

/-- C3 (amended): when the publish call fails with a duplicate-content
error, the posting loop does *not* record the candidate's hash — it
treats the error like any other non-rate-limit error, retrying with
freshly generated content and returning null with the store unchanged
after its three attempts; the hash is recorded only on success. -/
theorem claim_C3_duplicate_not_recorded (gen : Nat → Option JSStr) (pub : Nat → PubResult)
    (store : List JSStr) (c : JSStr)
    (hgen : ∀ i, gen i = some c) (hne : c ≠ [])
    (hfresh : setHas store (hashTweet (some c)) = false)
    (hpub : ∀ i, pub i = PubResult.dupContent) :
    postTweet gen pub store 2 = (none, store, 3) := by
  unfold postTweet
  simp only [postTweetGo, hgen, hpub, hne, hfresh, Bool.false_eq_true, if_false]
  norm_num

/-- C3 witness: with a duplicate-content error on every attempt, the
store is unchanged, no tweet is returned, and three publish calls were
made. -/
theorem claim_C3_witness :
    postTweet (fun _ => some (jsStr "gm ser, locks are ngmi"))
        (fun _ => PubResult.dupContent) [] 2 = (none, [], 3) :=
  claim_C3_duplicate_not_recorded _ _ _ _ (fun _ => rfl) (by decide) rfl (fun _ => rfl)

/-- C3 counterexample: a duplicate-content rejection leaves the store
empty, while the same candidate on a successful publish has its hash
recorded — so the duplicate path does *not* record the hash "exactly as
it would on success". -/
theorem claim_C3_counterexample :
    (postTweet (fun _ => some (jsStr "gm ser, locks are ngmi"))
        (fun _ => PubResult.dupContent) [] 2).2.1 = [] ∧
    (postTweet (fun _ => some (jsStr "gm ser, locks are ngmi"))
        (fun _ => PubResult.success) [] 2).2.1 =
      [hashTweet (some (jsStr "gm ser, locks are ngmi"))] :=
  ⟨rfl, rfl⟩

/-- C4 (amended): when every language-backend invocation throws, the
informational generator falls back to its fixed list; *if* it returns a
text, that text is a non-empty fallback whose hash is not in the memory
store — but it returns null when every fallback is blocked (there is no
salting). -/
theorem claim_C4_fallback_fresh_or_null (statsTvl : Option JSStr)
    (store recentTweets order : List JSStr)
    (horder : ∀ fb ∈ order, fb ∈ PROTOCOL_FALLBACKS) (t : JSStr)
    (hres : generateProtocolTweetBackendDown statsTvl store recentTweets order = some t) :
    t ≠ [] ∧ setHas store (hashTweet (some t)) = false := by
  rcases statsTvl with _ | tvl
  · simp [generateProtocolTweetBackendDown] at hres
  · by_cases htvl : tvl = jsStr "0"
    · simp [generateProtocolTweetBackendDown, htvl] at hres
    · simp only [generateProtocolTweetBackendDown] at hres
      rw [if_neg htvl] at hres
      rcases fallbackScan_sound store recentTweets order t hres with ⟨hmem, hfresh⟩
      exact ⟨protocol_fallbacks_nonempty t (horder t hmem), hfresh⟩

/-- C4 witness: with an empty store the fallback scan returns the first
fallback, which is non-empty and has an unseen hash. -/
theorem claim_C4_witness :
    jsStr "Did you know? Every iAERO holder owns a piece of permanently locked veAERO. The lock never expires, but your tokens stay liquid. Best of both worlds." ≠
        ([] : JSStr) ∧
    setHas []
      (hashTweet (some (jsStr "Did you know? Every iAERO holder owns a piece of permanently locked veAERO. The lock never expires, but your tokens stay liquid. Best of both worlds."))) =
      false :=
  claim_C4_fallback_fresh_or_null (some (jsStr "5.2M")) [] [] PROTOCOL_FALLBACKS
    (fun _ h => h) _ rfl

/-- C4 counterexample: with valid stats, an always-throwing backend and a
store that already contains every fallback's hash, the informational
generator returns null rather than a non-empty text — refuting the
unconditional fallback guarantee. -/
theorem claim_C4_counterexample :
    generateProtocolTweetBackendDown (some (jsStr "5.2M"))
      (PROTOCOL_FALLBACKS.map fun fb => hashTweet (some fb)) [] PROTOCOL_FALLBACKS =
      none := by
  have hall : ∀ fb ∈ PROTOCOL_FALLBACKS,
      setHas (PROTOCOL_FALLBACKS.map fun s => hashTweet (some s))
        (hashTweet (some fb)) = true := by
    intro fb hfb
    exact (setHas_eq_true_iff _ _).mpr (List.mem_map_of_mem _ hfb)
  simp only [generateProtocolTweetBackendDown]
  rw [if_neg (by decide), fallbackScan_all_blocked _ _ _ hall]

/-- C5 (amended): the save/load round trip preserves membership for
every store of at most 500 hashes (the JavaScript `Set` is
duplicate-free); in general `saveHashes` keeps only the most recent 500
entries. -/
theorem claim_C5_roundtrip_bounded (store : List JSStr)
    (hnd : store.Nodup) (hlen : store.length ≤ 500) :
    loadHashes (saveHashes store) = store ∧
      ∀ h, setHas (loadHashes (saveHashes store)) h = setHas store h := by
  have hsave : saveHashes store = store := by
    simp [saveHashes, Nat.sub_eq_zero_of_le hlen]
  have hload : loadHashes (saveHashes store) = store := by
    rw [hsave]
    exact loadHashes_of_nodup store hnd
  exact ⟨hload, fun h => by rw [hload]⟩

/-- C5 witness: membership survives the round trip on a concrete
single-hash store. -/
theorem claim_C5_witness :
    loadHashes (saveHashes [jsStr "abcd"]) = [jsStr "abcd"] :=
  (claim_C5_roundtrip_bounded [jsStr "abcd"] (by simp) (by simp)).1

set_option maxRecDepth 100000 in
/-- C5 counterexample: a 501-hash store loses its oldest hash across the
round trip — `contains` answers differ between the writing instance and
the fresh instance — refuting the claim for *every* in-memory hash
set. -/
theorem claim_C5_counterexample :
    setHas bigStore (jsStr "a") = true ∧
    setHas (loadHashes (saveHashes bigStore)) (jsStr "a") = false := by
  constructor
  · apply (setHas_eq_true_iff _ _).mpr
    have h0 : jsStr "a" = List.replicate (0 + 1) 'a' := rfl
    rw [h0]
    exact List.mem_map_of_mem _ (List.mem_range.mpr (by norm_num))
  · have hlen : bigStore.length = 501 := by
      simp [bigStore]
    have hdrop : saveHashes bigStore =
        (List.range 500).map fun i => List.replicate (i + 2) 'a' := by
      rw [saveHashes, hlen]
      norm_num
      rw [bigStore, List.range_succ_eq_map]
      simp only [List.map_cons, List.drop_succ_cons, List.drop_zero, List.map_map]
      rfl
    have hnodup : ((List.range 500).map fun i => List.replicate (i + 2) 'a').Nodup := by
      refine List.Nodup.map ?_ (List.nodup_range 500)
      intro i j hij
      have := congrArg List.length hij
      simpa using this
    rw [hdrop, loadHashes_of_nodup _ hnodup]
    rcases hb : setHas ((List.range 500).map fun i => List.replicate (i + 2) 'a')
        (jsStr "a") with _ | _
    · rfl
    · exfalso
      rcases List.mem_map.mp ((setHas_eq_true_iff _ _).mp hb) with ⟨i, _, heq⟩
      have := congrArg List.length heq
      simp [jsStr] at this

end TwitterBot
